import Mathlib

/-!
# Verification of the `pm` subscriber core

Shallow embedding of the subscriber half of the `pm` Pub/Sub wrapper
(`subscriber.go`, `subscription_interceptor.go`, `middleware/pm_autoack`).

The embedding models:

* the registry of subscription handlers (a Go map from subscription id to
  handler) together with the `sync.RWMutex` that guards it, and
  `HandleSubscriptionFunc` as the exact sequence of atomic actions the Go
  method performs on that shared state (read-lock, presence check, an early
  `return` on the duplicate path that does *not* release the read lock,
  read-unlock, write-lock, insert, write-unlock);
* `HandleSubscriptionFuncMap`, which runs one such registration per entry of
  the argument map in concurrently scheduled goroutines and fails iff any
  entry fails;
* the interceptor-chain construction performed by `Run` (the downward
  indexed loop `for i := len-1; i >= 0; i--`), `SubscriptionInfo`, and the
  per-subscription consumption task that `Run` spawns;
* cancellation: `Run` installs a shared `context.CancelFunc`, `Close` fires
  it if non-nil, and every consumption task observes the same cancelled
  flag;
* the `pm_autoack` middleware, which acks or nacks a message according to
  the error returned by the wrapped handler.

Concurrency is modelled by explicit interleavings: a machine state, one
program counter per goroutine, and an executor driven by a schedule (the
list of thread indices that take the next atomic step).
-/

namespace PM

/-! ## Registry and errors -/

/-- Handlers are identified by an abstract tag; the registry stores tags. -/
abbrev HandlerTag := Nat

/-- The registry: the Go map `subscriptionHandlers`, as an association list
keyed by subscription id.  `mapInsert` has Go-map semantics: it overwrites
any entry already present under the key. -/
abbrev Registry := List (String × HandlerTag)

def mapLookup (r : Registry) (k : String) : Option HandlerTag :=
  match r with
  | [] => none
  | (k', v) :: rest => if k' = k then some v else mapLookup rest k

def mapInsert (r : Registry) (k : String) (v : HandlerTag) : Registry :=
  match r with
  | [] => [(k, v)]
  | (k', v') :: rest =>
      if k' = k then (k, v) :: rest else (k', v') :: mapInsert rest k v

/-- Registration failure, from
`fmt.Errorf("handler for subscription '%s' is already registered", id)`. -/
inductive RegError where
  | alreadyRegistered (id : String)
  deriving DecidableEq, Repr

/-- The rendered Go error message (`\x27` is the ASCII quote). -/
def regErrorMessage : RegError → String
  | .alreadyRegistered id =>
      "handler for subscription \x27" ++ id ++ "\x27 is already registered"

/-! ## The `sync.RWMutex` and the atomic steps of `HandleSubscriptionFunc` -/

/-- State of the `sync.RWMutex` `s.mu`: the number of readers currently
holding `RLock`, and whether a writer holds `Lock`. -/
structure RWLock where
  readers : Nat
  writer : Bool
  deriving DecidableEq, Repr

/-- Program counter of one goroutine executing the body of
`HandleSubscriptionFunc`.  The order of the constructors follows the order
of the statements in the Go source. -/
inductive PC where
  | rlock    -- s.mu.RLock()
  | check    -- if _, ok := s.subscriptionHandlers[id]; ok { return err }
  | runlock  -- s.mu.RUnlock()
  | wlock    -- s.mu.Lock()
  | insert   -- s.subscriptionHandlers[id] = handler
  | wunlock  -- s.mu.Unlock()
  | done     -- returned
  deriving DecidableEq, Repr

/-- One goroutine: the id and handler it registers, where it is in the
body, and the value it returned (meaningful once `pc = done`). -/
structure ThreadSt where
  id : String
  h : HandlerTag
  pc : PC
  res : Option RegError
  deriving DecidableEq, Repr

def mkThread (id : String) (h : HandlerTag) : ThreadSt :=
  { id := id, h := h, pc := .rlock, res := none }

/-- The shared state: the lock, the registry, and every goroutine. -/
structure MachineSt where
  lock : RWLock
  registry : Registry
  threads : List ThreadSt
  deriving DecidableEq, Repr

/-- One atomic step of thread `t` in state `s`, or `none` when the thread
does not exist, already returned, or is blocked on the lock.  Each branch
is the literal Go statement:

* `rlock` needs no writer (Go `RWMutex.RLock` blocks while a writer holds
  the lock) and increments the reader count;
* `check` looks the id up in the map; on a hit the goroutine returns the
  duplicate error **while still holding the read lock** — the Go source
  returns before `s.mu.RUnlock()`;
* `runlock` decrements the reader count;
* `wlock` needs no reader and no writer;
* `insert` stores the handler under the id (overwriting on collision, as a
  Go map assignment does);
* `wunlock` releases the writer and the goroutine returns `nil`. -/
def stepThread (s : MachineSt) (t : Nat) : Option MachineSt :=
  match s.threads[t]? with
  | none => none
  | some th =>
    let put (th' : ThreadSt) (lock' : RWLock) (reg' : Registry) : MachineSt :=
      { lock := lock', registry := reg', threads := s.threads.set t th' }
    match th.pc with
    | .rlock =>
        if s.lock.writer then none
        else some (put { th with pc := .check }
          { s.lock with readers := s.lock.readers + 1 } s.registry)
    | .check =>
        match mapLookup s.registry th.id with
        | some _ =>
            some (put { th with pc := .done,
                                res := some (.alreadyRegistered th.id) }
              s.lock s.registry)
        | none => some (put { th with pc := .runlock } s.lock s.registry)
    | .runlock =>
        some (put { th with pc := .wlock }
          { s.lock with readers := s.lock.readers - 1 } s.registry)
    | .wlock =>
        if s.lock.readers = 0 && !s.lock.writer then
          some (put { th with pc := .insert }
            { s.lock with writer := true } s.registry)
        else none
    | .insert =>
        some (put { th with pc := .wunlock } s.lock
          (mapInsert s.registry th.id th.h))
    | .wunlock =>
        some (put { th with pc := .done, res := none }
          { s.lock with writer := false } s.registry)
    | .done => none

/-- Run a schedule: at each entry the named thread takes one atomic step.
`none` when some scheduled step is impossible (blocked or done). -/
def execSched (s : MachineSt) : List Nat → Option MachineSt
  | [] => some s
  | t :: rest => (stepThread s t).bind (fun s' => execSched s' rest)

/-- Initial machine: lock free, given registry, one goroutine per
`(id, handler)` pair, each about to call `HandleSubscriptionFunc`. -/
def initMachine (reg : Registry) (calls : List (String × HandlerTag)) :
    MachineSt :=
  { lock := { readers := 0, writer := false },
    registry := reg,
    threads := calls.map (fun c => mkThread c.1 c.2) }

/-- A thread is deadlocked when it has not returned yet and cannot step. -/
def blockedThread (s : MachineSt) (t : Nat) : Prop :=
  (s.threads[t]?.map ThreadSt.pc ≠ some .done) ∧ stepThread s t = none

instance (s : MachineSt) (t : Nat) : Decidable (blockedThread s t) := by
  unfold blockedThread; infer_instance

/-! ## Messages, handlers, interceptors, and the chain built by `Run` -/

/-- A pull message.  `acks`/`nacks` count the `Ack()`/`Nack()` calls made on
it; `handled` is instrumentation counting how many times a handler body ran
on it. -/
structure PMsg where
  data : String
  acks : Nat
  nacks : Nat
  handled : Nat
  deriving DecidableEq, Repr

/-- `MessageHandler = func(ctx, m *pubsub.Message) error`, embedded as a
state-passing function on the message (the context plays no role in the
embedded claims): it returns the message after the handler's own
`Ack`/`Nack` effects, plus the error. -/
abbrev MessageHandler := PMsg → PMsg × Option String

/-- `SubscriptionInfo` from `subscription_interceptor.go`: the descriptor
holds the subscription id (its only field). -/
structure SubscriptionInfo where
  SubscriptionID : String
  deriving DecidableEq, Repr

/-- `SubscriptionInterceptor = func(info *SubscriptionInfo, next
MessageHandler) MessageHandler`. -/
abbrev SubscriptionInterceptor :=
  SubscriptionInfo → MessageHandler → MessageHandler

/-- Placeholder interceptor for out-of-range indexing (never reached when
the index is in bounds). -/
def idInterceptor : SubscriptionInterceptor := fun _ next => next

/-- The loop in `Run`:
`last := h.handleFunc; for i := len(ints)-1; i >= 0; i-- {
  last = ints[i](&subscriptionInfo, last) }`,
unrolled on the counter: `chainLoop ints info k last` still has indices
`k-1, …, 0` to apply, innermost application first (index `k-1`). -/
def chainLoop (ints : List SubscriptionInterceptor) (info : SubscriptionInfo) :
    Nat → MessageHandler → MessageHandler
  | 0, last => last
  | k + 1, last => chainLoop ints info k ((ints.getD k idInterceptor) info last)

/-- The effective handler `Run` builds for one subscription. -/
def buildChain (ints : List SubscriptionInterceptor) (info : SubscriptionInfo)
    (h : MessageHandler) : MessageHandler :=
  chainLoop ints info ints.length h

/-- Modelled from the spec: "fold from the last interceptor to the first,
each step wrapping the handler produced by the previous step, i.e.
effective = I1(I2(…In(H)…))". -/
def specChain : List SubscriptionInterceptor → SubscriptionInfo →
    MessageHandler → MessageHandler
  | [], _, h => h
  | i :: rest, info, h => i info (specChain rest info h)

/-- `chainLoop` instrumented with a counter of interceptor applications. -/
def chainLoopApps (ints : List SubscriptionInterceptor)
    (info : SubscriptionInfo) : Nat → MessageHandler × Nat →
    MessageHandler × Nat
  | 0, acc => acc
  | k + 1, acc =>
      chainLoopApps ints info k
        ((ints.getD k idInterceptor) info acc.1, acc.2 + 1)

/-- How many times interceptors are applied while building one chain. -/
def buildChainApps (ints : List SubscriptionInterceptor)
    (info : SubscriptionInfo) (h : MessageHandler) : Nat :=
  (chainLoopApps ints info ints.length (h, 0)).2

/-- One registered subscription: `subscriptionHandler` (the id stands for
`subscription.ID()`). -/
structure SubEntry where
  id : String
  handleFunc : MessageHandler

/-- Input to one consumption task: its registration, the messages the
broker delivers to it, and the error `subscription.Receive` returns when it
ends (`none` = clean cancellation). -/
structure TaskInput where
  entry : SubEntry
  delivered : List PMsg
  pullErr : Option String

/-- What a consumption task produces: the messages after processing, and
the pull error it logged (`log.Printf`) — a task has no channel back to the
caller of `Run`, which returns nothing. -/
structure TaskOutcome where
  processed : List PMsg
  logged : Option String
  deriving DecidableEq, Repr

/-- The goroutine `Run` spawns per subscription: it constructs
`SubscriptionInfo{SubscriptionID: h.subscription.ID()}`, builds the
interceptor chain once, then hands `func(ctx, m) { _ = last(ctx, m) }` to
`Receive` — the callback discards the effective handler's error — and
finally logs the receive error, if any. -/
def runTask (ints : List SubscriptionInterceptor) (ti : TaskInput) :
    TaskOutcome :=
  let info : SubscriptionInfo := { SubscriptionID := ti.entry.id }
  let last := buildChain ints info ti.entry.handleFunc
  { processed := ti.delivered.map (fun m => (last m).1),
    logged := ti.pullErr }

/-- `Run`: one detached task per registered subscription. -/
def runSubscriber (ints : List SubscriptionInterceptor)
    (tis : List TaskInput) : List TaskOutcome :=
  tis.map (runTask ints)

/-- `Run` builds the descriptor from the subscription id alone; the
registration's topic does not flow into it (`HandleSubscriptionFunc` does
not even take a topic). -/
def runInfoFor (_topicID subscriptionID : String) : SubscriptionInfo :=
  { SubscriptionID := subscriptionID }

/-- Modelled from the spec: "immutable descriptor {topicID,
subscriptionID}" — some projection of the descriptor recovers the
registration's topic id. -/
def specInfoHasTopic : Prop :=
  ∃ f : SubscriptionInfo → String,
    ∀ tid sid : String, f (runInfoFor tid sid) = tid

/-! ## `pm_autoack` -/

/-- `m.Ack()`. -/
def ackGo (m : PMsg) : PMsg := { m with acks := m.acks + 1 }

/-- `m.Nack()`. -/
def nackGo (m : PMsg) : PMsg := { m with nacks := m.nacks + 1 }

/-- `pm_autoack.SubscriptionInterceptor()`: run `next`; on a non-nil error
`m.Nack()`, otherwise `m.Ack()`; return the error. -/
def autoackInterceptor : SubscriptionInterceptor := fun _ next => fun m =>
  match next m with
  | (m', some e) => (nackGo m', some e)
  | (m', none) => (ackGo m', none)

/-- A terminal handler that always fails and performs no effect of its own
(used as concrete input in witnesses). -/
def failingHandler : MessageHandler := fun m => (m, some "boom")

/-- A terminal handler that marks the message handled and fails (used as
concrete input in witnesses). -/
def failingCountingHandler : MessageHandler := fun m =>
  ({ m with handled := m.handled + 1 }, some "boom")

/-- A concrete message (used in witnesses). -/
def sampleMsg : PMsg := { data := "d", acks := 0, nacks := 0, handled := 0 }

/-- A concrete task input whose handler always fails and whose pull ends
with an error (used in witnesses). -/
def sampleFailingTask : TaskInput :=
  { entry := { id := "s", handleFunc := failingHandler },
    delivered := [sampleMsg],
    pullErr := some "rpc error" }

/-! ## Cancellation: the shared context installed by `Run`, fired by `Close`

`Run` wraps its context with `context.WithCancel`, stores the cancel
function in `s.cancel`, and passes the *same* cancelled context to every
task's `subscription.Receive`; `Close` fires it.  `Receive` itself is
library code outside this repository; its contract — it stops dispatching
the callback once its context is cancelled, while the callback invocation
already in flight may finish — is modelled from the spec.  The pipeline is
a small event system: the broker may deliver a message to a task at any
time; a task may begin a handler invocation on a delivered message only
while the shared `cancelled` flag is unset and it has no invocation in
flight; an in-flight invocation may complete at any time; `close` sets the
shared flag. -/

/-- Pipeline events (messages are numbered, tasks indexed). -/
inductive PEvent where
  | deliver (t : Nat) (m : Nat)
  | invoke (t : Nat) (m : Nat)
  | complete (t : Nat) (m : Nat)
  | close
  deriving DecidableEq, Repr

/-- Runtime state of one consumption task. -/
structure TaskRt where
  queued : List Nat
  inflight : Option Nat
  deriving DecidableEq, Repr

/-- Pipeline state: the one shared cancellation flag and every task. -/
structure PipeSt where
  cancelled : Bool
  tasks : List TaskRt
  deriving DecidableEq, Repr

/-- Replace task `t`'s runtime state. -/
def setTask (s : PipeSt) (t : Nat) (tk : TaskRt) : PipeSt :=
  { s with tasks := s.tasks.set t tk }

/-- One pipeline event, or `none` when the event is not enabled. -/
def pstep (s : PipeSt) (e : PEvent) : Option PipeSt :=
  match e with
  | .deliver t m =>
      match s.tasks[t]? with
      | none => none
      | some tk => some (setTask s t { tk with queued := tk.queued ++ [m] })
  | .invoke t m =>
      match s.tasks[t]? with
      | none => none
      | some tk =>
          if s.cancelled then none
          else if tk.inflight = none ∧ m ∈ tk.queued then
            some (setTask s t { queued := tk.queued.erase m,
                                inflight := some m })
          else none
  | .complete t m =>
      match s.tasks[t]? with
      | none => none
      | some tk =>
          if tk.inflight = some m then
            some (setTask s t { tk with inflight := none })
          else none
  | .close => some { s with cancelled := true }

/-- Run a sequence of pipeline events. -/
def pexec : PipeSt → List PEvent → Option PipeSt
  | s, [] => some s
  | s, e :: rest => (pstep s e).bind (fun s' => pexec s' rest)

/-- The pipeline `Run` starts for `n` registered subscriptions. -/
def pipeInit (n : Nat) : PipeSt :=
  { cancelled := false,
    tasks := List.replicate n { queued := [], inflight := none } }

/-- Does this event complete an invocation of task `t`? -/
def isCompleteOf (t : Nat) : PEvent → Bool
  | .complete t' _ => t' == t
  | _ => false

/-- Number of invocation completions of task `t` in a trace. -/
def completesOf (t : Nat) (tr : List PEvent) : Nat :=
  (tr.filter (isCompleteOf t)).length

/-- How many invocations task `t` currently has in flight (0 or 1). -/
def inflightCap (s : PipeSt) (t : Nat) : Nat :=
  match s.tasks[t]? with
  | none => 0
  | some tk => if tk.inflight.isSome then 1 else 0

/-! ## `Close` on the subscriber -/

/-- The fields of `Subscriber` that `Close` touches: `s.cancel` (nil until
`Run` assigns it) and whether the shared context has been cancelled. -/
structure SubRunState where
  cancel : Option Unit
  cancelled : Bool
  deriving DecidableEq, Repr

/-- Calling the stored cancel function: calling a nil Go function panics;
a real `context.CancelFunc` just cancels (idempotently). -/
def invokeCancelFunc : Option Unit → Except String Bool
  | none => .error "nil function call panic"
  | some _ => .ok true

/-- `Run`'s assignment `s.cancel = cancel`. -/
def runAssignsCancel (s : SubRunState) : SubRunState :=
  { s with cancel := some () }

/-- `Close`: `if s.cancel != nil { s.cancel() }`. -/
def closeGo (s : SubRunState) : Except String SubRunState :=
  if s.cancel.isSome then
    (invokeCancelFunc s.cancel).map (fun c => { s with cancelled := c })
  else .ok s

/-! ## The registration claims -/

/-- **C1.** Concurrent registrations under one subscription id.  The claim
says exactly one of them succeeds and the winning handler is never
overwritten.  In the source the presence check (under `RLock`) and the
insert (under `Lock`) are two separate critical sections, so in the
interleaving where both goroutines pass the check before either inserts,
*both* calls return `nil` and the second insert overwrites the first
handler.  This theorem executes `HandleSubscriptionFunc` twice, for id
`"sub"` with handlers `0` and `1`, under exactly that schedule: every lock
acquisition is legal, both threads finish with `res = none` (two
successes), and the stored handler is `1` — handler `0`, the first to be
stored, was overwritten. -/
theorem C1_race_both_succeed :
    ∃ s, execSched (initMachine [] [("sub", 0), ("sub", 1)])
        [0, 0, 0, 1, 1, 1, 0, 0, 0, 1, 1, 1] = some s ∧
      s.threads.map ThreadSt.res = [none, none] ∧
      s.threads.map ThreadSt.pc = [.done, .done] ∧
      mapLookup s.registry "sub" = some 1 := by
  refine ⟨_, rfl, ?_, ?_, ?_⟩ <;> decide

/-- **C3.** Registering under an id that is already taken: the call returns
the duplicate error naming the id, and the registry is completely
unchanged — the old handler stays stored.  (The run is the single-thread
execution of `HandleSubscriptionFunc`: `RLock`, then the presence check,
which hits and returns.) -/
theorem C3_duplicate_rejected (reg : Registry) (id : String)
    (g f : HandlerTag) (hdup : mapLookup reg id = some g) :
    ∃ s, execSched (initMachine reg [(id, f)]) [0, 0] = some s ∧
      s.registry = reg ∧
      mapLookup s.registry id = some g ∧
      s.threads.map ThreadSt.res = [some (.alreadyRegistered id)] ∧
      regErrorMessage (.alreadyRegistered id) =
        "handler for subscription \x27" ++ id ++
          "\x27 is already registered" := by
  refine ⟨{ lock := { readers := 1, writer := false }, registry := reg,
            threads := [{ id := id, h := f, pc := .done,
                          res := some (.alreadyRegistered id) }] },
    ?_, rfl, hdup, rfl, rfl⟩
  simp [execSched, stepThread, initMachine, mkThread, hdup]

/-- Witness for `C3_duplicate_rejected` at a concrete registry. -/
theorem C3_duplicate_rejected_witness :
    ∃ s, execSched (initMachine [("sub", 7)] [("sub", 3)]) [0, 0] = some s ∧
      s.registry = [("sub", 7)] ∧
      mapLookup s.registry "sub" = some 7 ∧
      s.threads.map ThreadSt.res = [some (.alreadyRegistered "sub")] ∧
      regErrorMessage (.alreadyRegistered "sub") =
        "handler for subscription \x27sub\x27 is already registered" :=
  C3_duplicate_rejected [("sub", 7)] "sub" 7 3 (by decide)

/-- **C6.** `HandleSubscriptionFuncMap` for the two entries
`{a ↦ 0, b ↦ 1}` on a subscriber where `"a"` is already registered.  The
claim says the call returns an error.  But the goroutine that hits the
duplicate returns *while still holding the read lock* (the Go source
returns before `s.mu.RUnlock()`), so in the schedule where it runs first,
the sibling goroutine registering `"b"` blocks forever acquiring the write
lock: neither thread can take another step, the sibling never returns, and
`errgroup.Wait` — hence `HandleSubscriptionFuncMap` itself — never
returns at all. -/
theorem C6_map_registration_deadlock :
    ∃ s, execSched (initMachine [("a", 5)] [("a", 0), ("b", 1)])
        [0, 0, 1, 1, 1] = some s ∧
      s.threads.map ThreadSt.res = [some (.alreadyRegistered "a"), none] ∧
      s.lock.readers = 1 ∧
      blockedThread s 1 ∧
      stepThread s 0 = none := by
  refine ⟨_, rfl, ?_, ?_, ?_, ?_⟩ <;> decide

/-! ## The chain-composition claims -/

theorem chainLoop_cons (I : SubscriptionInterceptor)
    (ints : List SubscriptionInterceptor) (info : SubscriptionInfo) :
    ∀ (k : Nat) (last : MessageHandler),
      chainLoop (I :: ints) info (k + 1) last =
        I info (chainLoop ints info k last) := by
  intro k
  induction k with
  | zero => intro last; rfl
  | succ k ih =>
      intro last
      show chainLoop (I :: ints) info (k + 1)
          (((I :: ints).getD (k + 1) idInterceptor) info last) =
        I info (chainLoop ints info k ((ints.getD k idInterceptor) info last))
      rw [List.getD_cons_succ, ih]

theorem buildChain_eq_specChain (ints : List SubscriptionInterceptor)
    (info : SubscriptionInfo) (h : MessageHandler) :
    buildChain ints info h = specChain ints info h := by
  induction ints with
  | nil => rfl
  | cons I rest ih =>
      show chainLoop (I :: rest) info (rest.length + 1) h =
        I info (specChain rest info h)
      rw [chainLoop_cons]
      exact congrArg (I info) ih

theorem chainLoopApps_spec (ints : List SubscriptionInterceptor)
    (info : SubscriptionInfo) :
    ∀ (k : Nat) (last : MessageHandler) (n : Nat),
      chainLoopApps ints info k (last, n) =
        (chainLoop ints info k last, n + k) := by
  intro k
  induction k with
  | zero => intro last n; rfl
  | succ k ih =>
      intro last n
      show chainLoopApps ints info k
          ((ints.getD k idInterceptor) info last, n + 1) =
        (chainLoop ints info k ((ints.getD k idInterceptor) info last),
          n + (k + 1))
      rw [ih]
      exact congrArg _ (by omega)

/-- **C2.** The effective handler `Run` builds equals
`I1(I2(…In(H)…))` — the source's downward indexed loop is exactly the
spec's right-to-left fold — including the zero-interceptor case (the
handler unchanged) and the one-interceptor case; while one chain is built,
each configured interceptor is applied exactly once (`buildChainApps`),
and the consumption task builds the chain once and then applies that same
effective handler to every delivered message. -/
theorem C2_chain_composition (ints : List SubscriptionInterceptor)
    (I : SubscriptionInterceptor) (info : SubscriptionInfo)
    (h : MessageHandler) (ti : TaskInput) :
    buildChain [] info h = h ∧
    buildChain [I] info h = I info h ∧
    buildChain (I :: ints) info h = I info (buildChain ints info h) ∧
    buildChain ints info h = specChain ints info h ∧
    buildChainApps ints info h = ints.length ∧
    runTask ints ti =
      { processed := ti.delivered.map (fun m =>
          (buildChain ints { SubscriptionID := ti.entry.id }
            ti.entry.handleFunc m).1),
        logged := ti.pullErr } := by
  refine ⟨rfl, rfl, ?_, buildChain_eq_specChain ints info h, ?_, rfl⟩
  · exact chainLoop_cons I ints info ints.length h
  · show (chainLoopApps ints info ints.length (h, 0)).2 = ints.length
    rw [chainLoopApps_spec]
    exact Nat.zero_add _

/-- **C5, counterexample.** The claim says `SubscriptionInfo` contains both
the topicID and the subscriptionID of the registration.  In the source the
struct has the single field `SubscriptionID`, and `Run` constructs it from
`h.subscription.ID()` alone — no projection of the descriptor can recover
the registration's topic, since registrations under topics `"t1"` and
`"t2"` with the same subscription id produce the identical descriptor. -/
theorem C5_no_topic_in_info : ¬ specInfoHasTopic := by
  rintro ⟨f, hf⟩
  exact absurd ((hf "t1" "s").symm.trans (hf "t2" "s")) (by decide)

/-- **C5, amended.** `SubscriptionInfo` is an immutable descriptor
containing only the subscriptionID: the descriptor is its subscription id
and nothing else (first conjunct), `Run` attaches exactly the
registration's subscription id (second conjunct, and the task processes
every message through the chain built over that descriptor — third
conjunct), and every interceptor layer receives the identical descriptor
value `info`, never a modified one (fourth conjunct). -/
theorem C5_info_is_subscription_id_only (i : SubscriptionInfo)
    (tid sid : String) (I : SubscriptionInterceptor)
    (ints : List SubscriptionInterceptor) (info : SubscriptionInfo)
    (h : MessageHandler) (ti : TaskInput) :
    i = { SubscriptionID := i.SubscriptionID } ∧
    runInfoFor tid sid = { SubscriptionID := sid } ∧
    runTask ints ti =
      { processed := ti.delivered.map (fun m =>
          (buildChain ints { SubscriptionID := ti.entry.id }
            ti.entry.handleFunc m).1),
        logged := ti.pullErr } ∧
    buildChain (I :: ints) info h = I info (buildChain ints info h) :=
  ⟨rfl, rfl, rfl, chainLoop_cons I ints info ints.length h⟩

/-- **C7.** A pull error is consumed by the task that suffered it: every
task's outcome carries its own receive error in the log slot (`Run`
returns nothing, so nothing reaches its caller), and the outcome a sibling
task produces is unchanged under any replacement of another task's input —
one subscription's failure never affects another's. -/
theorem C7_pull_error_isolated (ints : List SubscriptionInterceptor)
    (tis : List TaskInput) (i j : Nat) (ti' : TaskInput) (hne : i ≠ j) :
    (runSubscriber ints tis).map TaskOutcome.logged =
      tis.map TaskInput.pullErr ∧
    (runSubscriber ints (tis.set i ti'))[j]? =
      (runSubscriber ints tis)[j]? := by
  constructor
  · rw [runSubscriber, List.map_map]
    rfl
  · rw [runSubscriber, runSubscriber, List.getElem?_map, List.getElem?_map,
      List.getElem?_set_ne hne]

/-- Witness for `C7_pull_error_isolated`: two concrete failing tasks,
replacing task 0's input leaves task 1's outcome untouched. -/
theorem C7_pull_error_isolated_witness :
    (runSubscriber [] [sampleFailingTask, sampleFailingTask]).map
        TaskOutcome.logged =
      [sampleFailingTask, sampleFailingTask].map TaskInput.pullErr ∧
    (runSubscriber []
        ([sampleFailingTask, sampleFailingTask].set 0 sampleFailingTask))[1]? =
      (runSubscriber [] [sampleFailingTask, sampleFailingTask])[1]? :=
  C7_pull_error_isolated [] [sampleFailingTask, sampleFailingTask] 0 1
    sampleFailingTask (by decide)

/-- **C8.** When the effective handler fails on every delivered message,
the core subscriber takes no acknowledgement action: with no interceptors
configured and a handler that returns an error without effects of its own,
every processed message leaves the task exactly as delivered (no `Ack`, no
`Nack`), the task still processes all delivered messages and still only
logs its pull error — nothing terminates — while wrapping the same failing
handler in `pm_autoack` is what produces the `Nack`s. -/
theorem C8_no_ack_on_handler_error (ti : TaskInput) (e : String)
    (hfail : ∀ m ∈ ti.delivered, ti.entry.handleFunc m = (m, some e)) :
    (runTask [] ti).processed = ti.delivered ∧
    (runTask [] ti).processed.length = ti.delivered.length ∧
    (runTask [] ti).logged = ti.pullErr ∧
    (runTask [autoackInterceptor] ti).processed =
      ti.delivered.map nackGo := by
  have h1 : (runTask [] ti).processed = ti.delivered := by
    show ti.delivered.map (fun m => (ti.entry.handleFunc m).1) = ti.delivered
    have : ∀ m ∈ ti.delivered, (ti.entry.handleFunc m).1 = m := by
      intro m hm
      rw [hfail m hm]
    rw [List.map_congr_left this, List.map_id']
  refine ⟨h1, by rw [h1], rfl, ?_⟩
  show ti.delivered.map (fun m =>
      (autoackInterceptor { SubscriptionID := ti.entry.id }
        ti.entry.handleFunc m).1) = ti.delivered.map nackGo
  refine List.map_congr_left ?_
  intro m hm
  show (autoackInterceptor { SubscriptionID := ti.entry.id }
    ti.entry.handleFunc m).1 = nackGo m
  unfold autoackInterceptor
  rw [hfail m hm]

/-- Witness for `C8_no_ack_on_handler_error`: a task whose handler always
fails with `"boom"`. -/
theorem C8_no_ack_on_handler_error_witness :
    (runTask [] sampleFailingTask).processed = sampleFailingTask.delivered ∧
    (runTask [] sampleFailingTask).processed.length =
      sampleFailingTask.delivered.length ∧
    (runTask [] sampleFailingTask).logged = sampleFailingTask.pullErr ∧
    (runTask [autoackInterceptor] sampleFailingTask).processed =
      sampleFailingTask.delivered.map nackGo :=
  C8_no_ack_on_handler_error sampleFailingTask "boom" (fun _ _ => rfl)

/-- **C9.** The handler `pm_autoack` produces invokes `next` exactly once
(witnessed by the `handled` instrumentation, which `Ack`/`Nack` do not
touch), calls `Ack` iff `next` returned no error, calls `Nack` iff it
returned an error, and returns `next`'s result unchanged. -/
theorem C9_autoack_ack_iff_success (i : SubscriptionInfo)
    (next : MessageHandler) (m : PMsg)
    (honce : ∀ x, ((next x).1).handled = x.handled + 1) :
    (autoackInterceptor i next m).2 = (next m).2 ∧
    ((autoackInterceptor i next m).1).handled = m.handled + 1 ∧
    ((autoackInterceptor i next m).1).acks =
      ((next m).1).acks + (if (next m).2 = none then 1 else 0) ∧
    ((autoackInterceptor i next m).1).nacks =
      ((next m).1).nacks + (if (next m).2 = none then 0 else 1) := by
  have h := honce m
  rcases hm : next m with ⟨m', e⟩
  rw [hm] at h
  cases e <;> simp [autoackInterceptor, hm, ackGo, nackGo] <;> exact h

/-- Witness for `C9_autoack_ack_iff_success`: a failing counting handler
on a concrete message. -/
theorem C9_autoack_ack_iff_success_witness :
    (autoackInterceptor { SubscriptionID := "s" } failingCountingHandler
        sampleMsg).2 = (failingCountingHandler sampleMsg).2 ∧
    ((autoackInterceptor { SubscriptionID := "s" } failingCountingHandler
        sampleMsg).1).handled = sampleMsg.handled + 1 ∧
    ((autoackInterceptor { SubscriptionID := "s" } failingCountingHandler
        sampleMsg).1).acks = ((failingCountingHandler sampleMsg).1).acks +
      (if (failingCountingHandler sampleMsg).2 = none then 1 else 0) ∧
    ((autoackInterceptor { SubscriptionID := "s" } failingCountingHandler
        sampleMsg).1).nacks = ((failingCountingHandler sampleMsg).1).nacks +
      (if (failingCountingHandler sampleMsg).2 = none then 0 else 1) :=
  C9_autoack_ack_iff_success { SubscriptionID := "s" }
    failingCountingHandler sampleMsg (fun _ => rfl)

/-! ## The cancellation claims -/

theorem pexec_append (l1 l2 : List PEvent) :
    ∀ s : PipeSt, pexec s (l1 ++ l2) =
      (pexec s l1).bind (fun s1 => pexec s1 l2) := by
  induction l1 with
  | nil => intro s; rfl
  | cons e l1 ih =>
      intro s
      show (pstep s e).bind (fun s1 => pexec s1 (l1 ++ l2)) =
        ((pstep s e).bind (fun s1 => pexec s1 l1)).bind
          (fun s1 => pexec s1 l2)
      cases pstep s e with
      | none => rfl
      | some s1 => exact ih s1

theorem inflightCap_le_one (s : PipeSt) (t : Nat) : inflightCap s t ≤ 1 := by
  unfold inflightCap
  cases s.tasks[t]? with
  | none => exact Nat.zero_le 1
  | some tk =>
      by_cases h : tk.inflight.isSome <;> simp [h]

theorem taskLength_of_getElem (s : PipeSt) (t : Nat) (tk : TaskRt)
    (htk : s.tasks[t]? = some tk) : t < s.tasks.length := by
  by_contra hge
  rw [List.getElem?_eq_none (Nat.le_of_not_lt hge)] at htk
  exact Option.noConfusion htk

theorem inflightCap_set_queued (s : PipeSt) (t t' : Nat) (tk : TaskRt)
    (q : List Nat) (htk : s.tasks[t]? = some tk) :
    inflightCap (setTask s t { tk with queued := q }) t'
      = inflightCap s t' := by
  have hlt : t < s.tasks.length := taskLength_of_getElem s t tk htk
  by_cases ht : t = t'
  · subst ht
    simp only [inflightCap, setTask, List.getElem?_set_eq_of_lt _ hlt, htk]
  · simp only [inflightCap, setTask, List.getElem?_set_ne ht]

/-- Key invariant: once the shared cancellation flag is set, a trace that
still executes contains no `invoke` event at all, and each task completes
at most as many invocations as it currently has in flight. -/
theorem pexec_cancelled (tr : List PEvent) :
    ∀ s s' : PipeSt, s.cancelled = true → pexec s tr = some s' →
      s'.cancelled = true ∧
      (∀ t m, PEvent.invoke t m ∉ tr) ∧
      (∀ t, completesOf t tr ≤ inflightCap s t) := by
  induction tr with
  | nil =>
      intro s s' hc hex
      cases hex
      exact ⟨hc, by simp, fun t => by simp [completesOf]⟩
  | cons e rest ih =>
      intro s s' hc hex
      simp only [pexec] at hex
      obtain ⟨s1, hstep, hrest⟩ := Option.bind_eq_some.mp hex
      cases e with
      | deliver t m =>
          cases htk : s.tasks[t]? with
          | none => simp [pstep, htk] at hstep
          | some tk =>
              simp only [pstep, htk, Option.some.injEq] at hstep
              subst hstep
              obtain ⟨h1, h2, h3⟩ := ih _ s' (by exact hc) hrest
              refine ⟨h1, ?_, ?_⟩
              · intro t' m' hmem
                rcases List.mem_cons.mp hmem with heq | hin
                · exact PEvent.noConfusion heq
                · exact h2 t' m' hin
              · intro t'
                have hcap := inflightCap_set_queued s t t' tk
                  (tk.queued ++ [m]) htk
                have hco : completesOf t' (PEvent.deliver t m :: rest) =
                    completesOf t' rest := by
                  simp [completesOf, List.filter_cons, isCompleteOf]
                rw [hco]
                exact le_trans (h3 t') (le_of_eq hcap)
      | invoke t m =>
          cases htk : s.tasks[t]? with
          | none => simp [pstep, htk] at hstep
          | some tk => simp [pstep, htk, hc] at hstep
      | complete t m =>
          cases htk : s.tasks[t]? with
          | none => simp [pstep, htk] at hstep
          | some tk =>
              by_cases hin : tk.inflight = some m
              · have hps : pstep s (PEvent.complete t m) =
                    some (setTask s t { tk with inflight := none }) := by
                  simp [pstep, htk, hin]
                rw [hps, Option.some_inj] at hstep
                subst hstep
                obtain ⟨h1, h2, h3⟩ := ih _ s' (by exact hc) hrest
                have hlt : t < s.tasks.length :=
                  taskLength_of_getElem s t tk htk
                refine ⟨h1, ?_, ?_⟩
                · intro t' m' hmem
                  rcases List.mem_cons.mp hmem with heq | hmem'
                  · exact PEvent.noConfusion heq
                  · exact h2 t' m' hmem'
                · intro t'
                  by_cases ht : t = t'
                  · subst ht
                    have hcap1 : inflightCap
                        (setTask s t { tk with inflight := none }) t = 0 := by
                      simp only [inflightCap, setTask,
                        List.getElem?_set_eq_of_lt _ hlt]
                      rfl
                    have h3t := h3 t
                    rw [hcap1] at h3t
                    have hco : completesOf t (PEvent.complete t m :: rest) =
                        completesOf t rest + 1 := by
                      simp [completesOf, List.filter_cons, isCompleteOf]
                    rw [hco]
                    have hcs : inflightCap s t = 1 := by
                      simp only [inflightCap, htk, hin]
                      rfl
                    omega
                  · have hcap : inflightCap
                        (setTask s t { tk with inflight := none }) t' =
                        inflightCap s t' := by
                      simp only [inflightCap, setTask,
                        List.getElem?_set_ne ht]
                    have hco : completesOf t' (PEvent.complete t m :: rest) =
                        completesOf t' rest := by
                      simp [completesOf, List.filter_cons, isCompleteOf, ht]
                    rw [hco]
                    exact le_trans (h3 t') (le_of_eq hcap)
              · simp [pstep, htk, hin] at hstep
      | close =>
          simp only [pstep, Option.some.injEq] at hstep
          subst hstep
          obtain ⟨h1, h2, h3⟩ := ih _ s' (by exact rfl) hrest
          refine ⟨h1, ?_, ?_⟩
          · intro t' m' hmem
            rcases List.mem_cons.mp hmem with heq | hmem'
            · exact PEvent.noConfusion heq
            · exact h2 t' m' hmem'
          · intro t'
            have hco : completesOf t' (PEvent.close :: rest) =
                completesOf t' rest := by
              simp [completesOf, List.filter_cons, isCompleteOf]
            rw [hco]
            exact h3 t'

/-- **C4.** `Run` hands the same cancellable context to every consumption
task, so the `close` event flips the one flag they all consult.  In any
pipeline execution that contains a `close`: the final state is cancelled
(the broadcast signal persists), no handler invocation begins after the
`close` — in particular none for the messages still being delivered
afterwards — and each subscription completes at most one invocation after
the `close`, namely the one in flight when it fired. -/
theorem C4_no_new_invocations_after_close (n : Nat)
    (pre post : List PEvent) (sfin : PipeSt)
    (hrun : pexec (pipeInit n) (pre ++ PEvent.close :: post) = some sfin) :
    sfin.cancelled = true ∧
    (∀ t m, PEvent.invoke t m ∉ post) ∧
    (∀ t, completesOf t post ≤ 1) := by
  rw [pexec_append] at hrun
  obtain ⟨sp, _, hrest⟩ := Option.bind_eq_some.mp hrun
  simp only [pexec] at hrest
  obtain ⟨sm, hclose, hpost⟩ := Option.bind_eq_some.mp hrest
  simp only [pstep, Option.some.injEq] at hclose
  subst hclose
  obtain ⟨h1, h2, h3⟩ := pexec_cancelled post _ sfin (by exact rfl) hpost
  exact ⟨h1, h2, fun t => le_trans (h3 t) (inflightCap_le_one _ t)⟩

/-- Witness for `C4_no_new_invocations_after_close`: one subscription;
message 5 is delivered and its invocation begins, `Close` fires, message 6
is delivered afterwards (and never begins), the in-flight invocation of 5
completes. -/
theorem C4_no_new_invocations_after_close_witness :
    (({ cancelled := true, tasks := [{ queued := [6], inflight := none }] } :
        PipeSt)).cancelled = true ∧
    (∀ t m, PEvent.invoke t m ∉
      [PEvent.deliver 0 6, PEvent.complete 0 5]) ∧
    (∀ t, completesOf t [PEvent.deliver 0 6, PEvent.complete 0 5] ≤ 1) :=
  C4_no_new_invocations_after_close 1
    [PEvent.deliver 0 5, PEvent.invoke 0 5]
    [PEvent.deliver 0 6, PEvent.complete 0 5]
    { cancelled := true, tasks := [{ queued := [6], inflight := none }] }
    (by decide)

/-! ## The `Close` claim -/

/-- **C10.** `Close` before `Run` is a safe no-op: on the fresh subscriber
(`cancel` still nil) it changes nothing and does not panic, because the
nil cancel function is guarded; on every state it returns normally; and
closing twice is the same as closing once (a second `Close` on the state a
successful `Close` produced returns that state unchanged). -/
theorem C10_close_is_safe_noop (s s' : SubRunState)
    (h : closeGo s = Except.ok s') :
    closeGo { cancel := none, cancelled := false } =
      Except.ok { cancel := none, cancelled := false } ∧
    (∀ t : SubRunState, ∃ u, closeGo t = Except.ok u) ∧
    closeGo s' = Except.ok s' := by
  refine ⟨rfl, ?_, ?_⟩
  · intro t
    cases hc : t.cancel with
    | none => exact ⟨t, by simp [closeGo, hc]⟩
    | some u =>
        exact ⟨{ t with cancelled := true },
          by simp [closeGo, hc, invokeCancelFunc, Except.map]⟩
  · cases hc : s.cancel with
    | none =>
        have hs : s' = s := by
          simp only [closeGo, hc, Option.isSome_none, Bool.false_eq_true,
            if_false, Except.ok.injEq] at h
          exact h.symm
        subst hs
        simp [closeGo, hc]
    | some u =>
        have hs : s' = { s with cancelled := true } := by
          simp only [closeGo, hc, invokeCancelFunc, Except.map,
            Option.isSome_some, if_true, Except.ok.injEq] at h
          rw [hc]
          exact h.symm
        subst hs
        simp [closeGo, hc, invokeCancelFunc, Except.map]

/-- Witness for `C10_close_is_safe_noop`: `Close` after `Run` assigned the
cancel function, then the derived facts including that a second `Close` is
harmless. -/
theorem C10_close_is_safe_noop_witness :
    closeGo { cancel := none, cancelled := false } =
      Except.ok { cancel := none, cancelled := false } ∧
    (∀ t : SubRunState, ∃ u, closeGo t = Except.ok u) ∧
    closeGo { cancel := some (), cancelled := true } =
      Except.ok { cancel := some (), cancelled := true } :=
  C10_close_is_safe_noop { cancel := some (), cancelled := false }
    { cancel := some (), cancelled := true } rfl

end PM
